import Mathlib

/-!
Shallow embedding of the dreambox-doom bridge (`src/lib.rs`).

Two subsystems are modelled:

* the allocator adapter `doom_malloc` / `doom_free`, which prefixes every
  allocation with an 8-byte header that stores the requested size;
* the audio frame scheduler (`MyApp::process_audio`, the audio part of
  `MyApp::update`, `MyApp::schedule_voice`), which pulls 1024 interleaved
  i16 samples per tick, de-interleaves and rescales them, stitches chunk
  boundaries, and schedules voices against the host mixer command queue.

Modelling conventions:

* machine integers (`i16`, `i32`, `i64`, `usize`) are `Int`/`Nat` with
  explicit wraparound or range checks where the source can overflow;
* `f64`/`f32` time and parameter values are modelled as rationals (`Rat`);
  the claims under study are control-flow and exact-constant properties,
  insensitive to the float rounding of the source;
* fallible host calls are oracles passed as parameters: the underlying
  allocator is `oracle : Layout → Nat` (`0` plays the role of the null
  pointer), sample-buffer creation is `ns : List Int → Int` producing the
  host handle for the created buffer;
* panics (`unwrap`, `expect`, `panic!` in the source) are `Option.none`;
* `audio::get_time()` is read several times inside one tick by the source;
  the model passes a single per-tick host-clock value `rt`, matching the
  spec's one "host real clock" observation per tick.
-/

/-- wasm32 `isize::MAX`, the limit enforced by `Layout::array::<u8>`. -/
def ISIZE_MAX : Nat := 2 ^ 31 - 1

/-- wasm32 `usize::MAX`, the limit enforced by `usize::try_from`. -/
def USIZE_MAX : Nat := 2 ^ 32 - 1

/-- `usize::try_from` on a signed integer value (`i32` or `i64` in the
source): fails on negative values and on values above `usize::MAX`. -/
def usizeTryFrom (n : Int) : Option Nat :=
  if 0 ≤ n ∧ n ≤ (USIZE_MAX : Int) then some n.toNat else none

/-- An allocation layout: size in bytes and alignment, as in
`std::alloc::Layout`. -/
structure Layout where
  size : Nat
  align : Nat
deriving DecidableEq, Repr

/-- `Layout::array::<u8>(n)`: element align is 1, fails when the total
size exceeds `isize::MAX`. -/
def Layout.array_u8 (n : Nat) : Option Layout :=
  if n ≤ ISIZE_MAX then some ⟨n, 1⟩ else none

/-- Power-of-two test used by `Layout::align_to`. -/
def isPow2 (n : Nat) : Bool :=
  n ≠ 0 && Nat.land n (n - 1) == 0

/-- `Layout::align_to(a)`: the alignment becomes `max align a`; fails when
`a` is not a power of two or the size rounded up to the new alignment
would exceed `isize::MAX`. -/
def Layout.align_to (l : Layout) (a : Nat) : Option Layout :=
  if isPow2 a = true ∧ l.size ≤ ISIZE_MAX - (max l.align a - 1) then
    some ⟨l.size, max l.align a⟩
  else none

/-- The adapter's heap view: the 8-byte header cells it has written, as an
association list from cell base address to the stored `i64` value. -/
abbrev Mem := List (Nat × Int)

/-- Write the `i64` header value `v` at address `a`. -/
def memWrite (m : Mem) (a : Nat) (v : Int) : Mem := (a, v) :: m

/-- Read the `i64` header value stored at address `a` (`0` for a cell the
adapter never wrote, standing for arbitrary memory). -/
def memRead (m : Mem) (a : Nat) : Int :=
  (m.find? (fun p => p.1 == a)).elim 0 Prod.snd

/-- `doom_malloc(size: i32)` from `src/lib.rs:397-414`.  `oracle` is the
underlying `std::alloc::alloc`, returning a base address (`0` = null).
Returns the pointer handed back to the caller and the updated header map;
`none` models a panicking `unwrap`.  Note the source returns `mem.add(8)`
without checking for null: the null test only guards the header write. -/
def doom_malloc (oracle : Layout → Nat) (size : Int) (m : Mem) :
    Option (Nat × Mem) := do
  let sz ← usizeTryFrom size
  let actual_size := 8 + sz
  let l0 ← Layout.array_u8 actual_size
  let layout ← l0.align_to 8
  let memp := oracle layout
  let m' := if memp ≠ 0 then memWrite m memp size else m
  some (memp + 8, m')

/-- `doom_free(ptr)` from `src/lib.rs:416-426`: steps back 8 bytes to the
header, reads the stored size, rebuilds the layout and deallocates.  The
result is the `(base address, layout)` pair passed to
`std::alloc::dealloc`; `none` models a panicking `unwrap`. -/
def doom_free (p : Nat) (m : Mem) : Option (Nat × Layout) := do
  let base := p - 8
  let size := memRead m base
  let sz ← usizeTryFrom size
  let actual_size := 8 + sz
  let l0 ← Layout.array_u8 actual_size
  let layout ← l0.align_to 8
  some (base, layout)

/-- Host file modes, as in `dbsdk_rs::io::FileMode`. -/
inductive FileMode
  | Read
  | Write
deriving DecidableEq, Repr

/-- `doom_open` from `src/lib.rs:428-440`: maps the C mode string to a
host `FileMode` and passes the file name through to `fs_open` unchanged.
The result is the `(path, mode)` pair handed to the host; `none` models
the `panic!` on an unexpected mode string. -/
def doom_open (filename : String) (mode : String) : Option (String × FileMode) :=
  match mode with
  | "r" => some (filename, FileMode.Read)
  | "rb" => some (filename, FileMode.Read)
  | "w" => some (filename, FileMode.Write)
  | "wb" => some (filename, FileMode.Write)
  | _ => none

/-! ## Audio frame scheduler model -/

/-- `AUDIO_LOOKAHEAD_TIME` from `src/lib.rs:9` (seconds). -/
def AUDIO_LOOKAHEAD_TIME : Rat := 5 / 100

/-- `AUDIO_NUM_BUFFERS` from `src/lib.rs:15`: capacity of the rotating
per-channel buffer pool. -/
def AUDIO_NUM_BUFFERS : Nat := 3

/-- `512.0 / 11025.0`, the schedule-clock increment per submission
(seconds per 512-frame chunk at 11025 Hz). -/
def chunkDuration : Rat := 512 / 11025

/-- The voice parameters of `dbsdk_rs::audio::AudioVoiceParam` used by
`schedule_voice`. -/
inductive AudioVoiceParam
  | SampleData
  | Samplerate
  | LoopEnabled
  | Reverb
  | Volume
  | Pitch
  | Detune
  | Pan
  | FadeInDuration
  | FadeOutDuration
deriving DecidableEq, Repr

/-- One timed command enqueued against the host mixer command queue. -/
inductive AudioCmd
  | set_voice_param_i (slot : Int) (p : AudioVoiceParam) (v : Int) (t : Rat)
  | set_voice_param_f (slot : Int) (p : AudioVoiceParam) (v : Rat) (t : Rat)
  | stop_voice (slot : Int) (t : Rat)
  | start_voice (slot : Int) (t : Rat)
deriving DecidableEq, Repr

/-- A host-resident sample buffer created by `AudioSample::create_s16`:
the samples uploaded, the sample rate passed at creation, and the host
handle. -/
structure Buffer where
  samples : List Int
  rate : Nat
  handle : Int
deriving DecidableEq, Repr

/-- The audio-relevant state of `MyApp` (`src/lib.rs:17-30`): the two
rotating buffer pools (`audio_buf`), the two pending per-channel chunks
(`audio_queue`), the schedule clock and the rotating index. -/
structure MyApp where
  audio_buf : List (Option Buffer) × List (Option Buffer)
  audio_queue : Option (List Int) × Option (List Int)
  audio_schedule_time : Rat
  next_buf : Nat
deriving DecidableEq, Repr

/-- The fields `MyApp::new` (`src/lib.rs:63-76`) gives the audio state. -/
def initApp : MyApp :=
  { audio_buf := ([none, none, none], [none, none, none])
    audio_queue := (none, none)
    audio_schedule_time := -1
    next_buf := 0 }

/-- `MyApp::schedule_voice` from `src/lib.rs:79-93`: the exact command
sequence programming one voice, in source order. -/
def schedule_voice (handle : Int) (slot : Int) (pan : Rat) (t : Rat) :
    List AudioCmd :=
  [ AudioCmd.set_voice_param_i slot AudioVoiceParam.SampleData handle t,
    AudioCmd.set_voice_param_i slot AudioVoiceParam.Samplerate 11025 t,
    AudioCmd.set_voice_param_i slot AudioVoiceParam.LoopEnabled 0 t,
    AudioCmd.set_voice_param_i slot AudioVoiceParam.Reverb 0 t,
    AudioCmd.set_voice_param_f slot AudioVoiceParam.Volume 1 t,
    AudioCmd.set_voice_param_f slot AudioVoiceParam.Pitch 1 t,
    AudioCmd.set_voice_param_f slot AudioVoiceParam.Detune 0 t,
    AudioCmd.set_voice_param_f slot AudioVoiceParam.Pan pan t,
    AudioCmd.set_voice_param_f slot AudioVoiceParam.FadeInDuration 0 t,
    AudioCmd.set_voice_param_f slot AudioVoiceParam.FadeOutDuration 0 t,
    AudioCmd.stop_voice slot t,
    AudioCmd.start_voice slot t ]

/-- Wrap an integer into the `i16` range, two's complement. -/
def wrapI16 (n : Int) : Int := (n + 2 ^ 15) % 2 ^ 16 - 2 ^ 15

/-- The Rust `x << 2` on `i16`: shift left by two bits, shifted-out bits
discarded, result reinterpreted as a signed 16-bit value. -/
def i16shl2 (x : Int) : Int := wrapI16 (x * 4)

/-- The left-channel half of the de-interleave loop in `process_audio`
(`src/lib.rs:108-111`): sample `i` is interleaved sample `2 i`, shifted
left by two bits. -/
def deinterleave_l (raw : List Int) : List Int :=
  (List.range 512).map fun i => i16shl2 (raw.getD (2 * i) 0)

/-- The right-channel half of the de-interleave loop in `process_audio`
(`src/lib.rs:108-111`): sample `i` is interleaved sample `2 i + 1`,
shifted left by two bits. -/
def deinterleave_r (raw : List Int) : List Int :=
  (List.range 512).map fun i => i16shl2 (raw.getD (2 * i + 1) 0)

/-- The per-channel stitch step of `process_audio`
(`src/lib.rs:124-152`): with a pending chunk, submit it extended by the
first sample of the incoming chunk; with no pending chunk, submit
nothing; either way the incoming chunk becomes the new pending chunk. -/
def stitch (pending : Option (List Int)) (incoming : List Int) :
    Option (List Int) × Option (List Int) :=
  match pending with
  | some v => (some (v ++ [incoming.headD 0]), some incoming)
  | none => (none, some incoming)

/-- The per-channel submission step of `process_audio`: when the stitch
produced a sequence, create a host buffer from it at 11025 Hz (handle
given by the host oracle `ns`), store it in the rotating slot `idx`, and
program the voice `slot` with the given pan at time `t`. -/
def submit_channel (ns : List Int → Int) (sub : Option (List Int))
    (bufs : List (Option Buffer)) (idx : Nat) (slot : Int) (pan : Rat)
    (t : Rat) : List (Option Buffer) × List AudioCmd :=
  match sub with
  | some v => (bufs.set idx (some ⟨v, 11025, ns v⟩),
               schedule_voice (ns v) slot pan t)
  | none => (bufs, [])

/-- `MyApp::process_audio` from `src/lib.rs:95-155`: one activation.
`raw` is the 1024-sample interleaved chunk read from
`doom_get_sound_buffer`; `ns` is the host's buffer-creation oracle.
Returns the new state and the commands enqueued (left channel first). -/
def process_audio (ns : List Int → Int) (raw : List Int) (st : MyApp) :
    MyApp × List AudioCmd :=
  let t := st.audio_schedule_time + AUDIO_LOOKAHEAD_TIME
  let data_l := deinterleave_l raw
  let data_r := deinterleave_r raw
  let sq_l := stitch st.audio_queue.1 data_l
  let sq_r := stitch st.audio_queue.2 data_r
  let bc_l := submit_channel ns sq_l.1 st.audio_buf.1
    (st.next_buf % AUDIO_NUM_BUFFERS) 0 (-1) t
  let bc_r := submit_channel ns sq_r.1 st.audio_buf.2
    (st.next_buf % AUDIO_NUM_BUFFERS) 1 1 t
  ({ audio_buf := (bc_l.1, bc_r.1)
     audio_queue := (sq_l.2, sq_r.2)
     audio_schedule_time := st.audio_schedule_time
     next_buf := st.next_buf + 1 },
   bc_l.2 ++ bc_r.2)

/-- The resync check at `src/lib.rs:171-174`: if the schedule clock fell
behind the host real clock `rt`, snap it to `rt`. -/
def resyncStep (rt : Rat) (st : MyApp) : MyApp :=
  if st.audio_schedule_time < rt then
    { st with audio_schedule_time := rt }
  else st

/-- The audio part of one `MyApp::update` tick (`src/lib.rs:171-180`):
resync, then, when the host clock has come within one look-ahead of the
schedule clock, run `process_audio` and advance the schedule clock by one
chunk duration. -/
def update_audio (ns : List Int → Int) (rt : Rat) (raw : List Int)
    (st : MyApp) : MyApp × List AudioCmd :=
  let st0 := resyncStep rt st
  if st0.audio_schedule_time - AUDIO_LOOKAHEAD_TIME ≤ rt then
    let pc := process_audio ns raw st0
    ({ pc.1 with audio_schedule_time := pc.1.audio_schedule_time + chunkDuration },
     pc.2)
  else (st0, [])

/-- Iterate `update_audio` over a sequence of ticks, each supplying the
host clock value and the engine's interleaved chunk for that tick. -/
def runTicks (ns : List Int → Int) : List (Rat × List Int) → MyApp →
    MyApp × List AudioCmd
  | [], st => (st, [])
  | (rt, raw) :: rest, st =>
      let uc := update_audio ns rt raw st
      let rc := runTicks ns rest uc.1
      (rc.1, uc.2 ++ rc.2)

/-- Iterate the per-channel stitch step over a sequence of per-channel
chunks, collecting each activation's submission (`none` = no
submission), together with the final pending chunk. -/
def runStitch : Option (List Int) → List (List Int) →
    List (Option (List Int)) × Option (List Int)
  | pending, [] => ([], pending)
  | pending, c :: cs =>
      let s := stitch pending c
      let r := runStitch s.2 cs
      (s.1 :: r.1, r.2)

/-- The queue invariant of the scheduler: the two pending chunks are
either both absent or both present with exactly 512 samples. -/
def queueInv (st : MyApp) : Bool :=
  match st.audio_queue.1, st.audio_queue.2 with
  | none, none => true
  | some a, some b => a.length == 512 && b.length == 512
  | _, _ => false

/-! ## Helper lemmas -/

theorem stitch_none_eq (c : List Int) : stitch none c = (none, some c) := rfl

theorem stitch_some_eq (v c : List Int) :
    stitch (some v) c = (some (v ++ [c.headD 0]), some c) := rfl

theorem stitch_snd (p : Option (List Int)) (c : List Int) :
    (stitch p c).2 = some c := by
  cases p <;> rfl

theorem submit_channel_none (ns : List Int → Int)
    (bufs : List (Option Buffer)) (idx : Nat) (slot : Int) (pan t : Rat) :
    submit_channel ns none bufs idx slot pan t = (bufs, []) := rfl

theorem submit_channel_some (ns : List Int → Int) (v : List Int)
    (bufs : List (Option Buffer)) (idx : Nat) (slot : Int) (pan t : Rat) :
    submit_channel ns (some v) bufs idx slot pan t =
      (bufs.set idx (some ⟨v, 11025, ns v⟩),
       schedule_voice (ns v) slot pan t) := rfl

theorem process_audio_unfold (ns : List Int → Int) (raw : List Int)
    (st : MyApp) :
    process_audio ns raw st =
      ({ audio_buf :=
          ((submit_channel ns (stitch st.audio_queue.1 (deinterleave_l raw)).1
              st.audio_buf.1 (st.next_buf % AUDIO_NUM_BUFFERS) 0 (-1)
              (st.audio_schedule_time + AUDIO_LOOKAHEAD_TIME)).1,
           (submit_channel ns (stitch st.audio_queue.2 (deinterleave_r raw)).1
              st.audio_buf.2 (st.next_buf % AUDIO_NUM_BUFFERS) 1 1
              (st.audio_schedule_time + AUDIO_LOOKAHEAD_TIME)).1)
         audio_queue := ((stitch st.audio_queue.1 (deinterleave_l raw)).2,
                         (stitch st.audio_queue.2 (deinterleave_r raw)).2)
         audio_schedule_time := st.audio_schedule_time
         next_buf := st.next_buf + 1 },
       (submit_channel ns (stitch st.audio_queue.1 (deinterleave_l raw)).1
          st.audio_buf.1 (st.next_buf % AUDIO_NUM_BUFFERS) 0 (-1)
          (st.audio_schedule_time + AUDIO_LOOKAHEAD_TIME)).2 ++
       (submit_channel ns (stitch st.audio_queue.2 (deinterleave_r raw)).1
          st.audio_buf.2 (st.next_buf % AUDIO_NUM_BUFFERS) 1 1
          (st.audio_schedule_time + AUDIO_LOOKAHEAD_TIME)).2) := rfl

theorem process_audio_queue_eq (ns : List Int → Int) (raw : List Int)
    (st : MyApp) :
    (process_audio ns raw st).1.audio_queue =
      (some (deinterleave_l raw), some (deinterleave_r raw)) := by
  rw [process_audio_unfold]
  simp [stitch_snd]

theorem process_audio_sched_eq (ns : List Int → Int) (raw : List Int)
    (st : MyApp) :
    (process_audio ns raw st).1.audio_schedule_time =
      st.audio_schedule_time := by
  rw [process_audio_unfold]

theorem process_audio_next_eq (ns : List Int → Int) (raw : List Int)
    (st : MyApp) :
    (process_audio ns raw st).1.next_buf = st.next_buf + 1 := by
  rw [process_audio_unfold]

theorem process_audio_buf_l_some (ns : List Int → Int) (raw : List Int)
    (st : MyApp) (v : List Int) (h : st.audio_queue.1 = some v) :
    (process_audio ns raw st).1.audio_buf.1 =
      st.audio_buf.1.set (st.next_buf % AUDIO_NUM_BUFFERS)
        (some ⟨v ++ [(deinterleave_l raw).headD 0], 11025,
               ns (v ++ [(deinterleave_l raw).headD 0])⟩) := by
  rw [process_audio_unfold, h, stitch_some_eq, submit_channel_some]

theorem process_audio_buf_l_none (ns : List Int → Int) (raw : List Int)
    (st : MyApp) (h : st.audio_queue.1 = none) :
    (process_audio ns raw st).1.audio_buf.1 = st.audio_buf.1 := by
  rw [process_audio_unfold, h, stitch_none_eq, submit_channel_none]

theorem process_audio_buf_r_some (ns : List Int → Int) (raw : List Int)
    (st : MyApp) (v : List Int) (h : st.audio_queue.2 = some v) :
    (process_audio ns raw st).1.audio_buf.2 =
      st.audio_buf.2.set (st.next_buf % AUDIO_NUM_BUFFERS)
        (some ⟨v ++ [(deinterleave_r raw).headD 0], 11025,
               ns (v ++ [(deinterleave_r raw).headD 0])⟩) := by
  rw [process_audio_unfold, h, stitch_some_eq, submit_channel_some]

theorem process_audio_buf_r_none (ns : List Int → Int) (raw : List Int)
    (st : MyApp) (h : st.audio_queue.2 = none) :
    (process_audio ns raw st).1.audio_buf.2 = st.audio_buf.2 := by
  rw [process_audio_unfold, h, stitch_none_eq, submit_channel_none]

theorem process_audio_cmds_some_some (ns : List Int → Int) (raw : List Int)
    (st : MyApp) (v1 v2 : List Int) (h1 : st.audio_queue.1 = some v1)
    (h2 : st.audio_queue.2 = some v2) :
    (process_audio ns raw st).2 =
      schedule_voice (ns (v1 ++ [(deinterleave_l raw).headD 0])) 0 (-1)
        (st.audio_schedule_time + AUDIO_LOOKAHEAD_TIME) ++
      schedule_voice (ns (v2 ++ [(deinterleave_r raw).headD 0])) 1 1
        (st.audio_schedule_time + AUDIO_LOOKAHEAD_TIME) := by
  rw [process_audio_unfold, h1, h2, stitch_some_eq, stitch_some_eq,
    submit_channel_some, submit_channel_some]

theorem process_audio_cmds_none_none (ns : List Int → Int) (raw : List Int)
    (st : MyApp) (h1 : st.audio_queue.1 = none)
    (h2 : st.audio_queue.2 = none) :
    (process_audio ns raw st).2 = [] := by
  rw [process_audio_unfold, h1, h2, stitch_none_eq, stitch_none_eq,
    submit_channel_none, submit_channel_none]
  rfl

theorem lookahead_nonneg : (0 : Rat) ≤ AUDIO_LOOKAHEAD_TIME := by
  norm_num [AUDIO_LOOKAHEAD_TIME]

theorem chunkDuration_pos : (0 : Rat) < chunkDuration := by
  norm_num [chunkDuration]

theorem resyncStep_sched_le (rt : Rat) (st : MyApp) :
    st.audio_schedule_time ≤ (resyncStep rt st).audio_schedule_time := by
  unfold resyncStep
  split
  · next h => exact le_of_lt h
  · exact le_refl _

theorem resyncStep_gate (rt : Rat) (st : MyApp)
    (h : st.audio_schedule_time < rt) :
    (resyncStep rt st).audio_schedule_time - AUDIO_LOOKAHEAD_TIME ≤ rt := by
  unfold resyncStep
  rw [if_pos h]
  have := lookahead_nonneg
  simp only
  linarith

theorem not_gate_resyncStep_eq (rt : Rat) (st : MyApp)
    (h : ¬ (resyncStep rt st).audio_schedule_time - AUDIO_LOOKAHEAD_TIME ≤ rt) :
    resyncStep rt st = st := by
  by_cases hlt : st.audio_schedule_time < rt
  · exact absurd (resyncStep_gate rt st hlt) h
  · unfold resyncStep
    rw [if_neg hlt]

theorem update_audio_gate_true (ns : List Int → Int) (rt : Rat)
    (raw : List Int) (st : MyApp)
    (h : (resyncStep rt st).audio_schedule_time - AUDIO_LOOKAHEAD_TIME ≤ rt) :
    update_audio ns rt raw st =
      ({ (process_audio ns raw (resyncStep rt st)).1 with
          audio_schedule_time :=
            (process_audio ns raw (resyncStep rt st)).1.audio_schedule_time +
              chunkDuration },
       (process_audio ns raw (resyncStep rt st)).2) := by
  unfold update_audio
  rw [if_pos h]

theorem update_audio_gate_false (ns : List Int → Int) (rt : Rat)
    (raw : List Int) (st : MyApp)
    (h : ¬ (resyncStep rt st).audio_schedule_time - AUDIO_LOOKAHEAD_TIME ≤ rt) :
    update_audio ns rt raw st = (resyncStep rt st, []) := by
  unfold update_audio
  rw [if_neg h]

theorem update_audio_sched_mono (ns : List Int → Int) (rt : Rat)
    (raw : List Int) (st : MyApp) :
    st.audio_schedule_time ≤ (update_audio ns rt raw st).1.audio_schedule_time := by
  have h0 := resyncStep_sched_le rt st
  by_cases h : (resyncStep rt st).audio_schedule_time - AUDIO_LOOKAHEAD_TIME ≤ rt
  · rw [update_audio_gate_true ns rt raw st h]
    simp only [process_audio_sched_eq]
    have := chunkDuration_pos
    linarith
  · rw [update_audio_gate_false ns rt raw st h]
    exact h0

theorem runTicks_sched_mono (ns : List Int → Int) :
    ∀ (ticks : List (Rat × List Int)) (st : MyApp),
      st.audio_schedule_time ≤ (runTicks ns ticks st).1.audio_schedule_time := by
  intro ticks
  induction ticks with
  | nil => intro st; exact le_refl _
  | cons tk rest ih =>
      intro st
      obtain ⟨rt, raw⟩ := tk
      calc st.audio_schedule_time
          ≤ (update_audio ns rt raw st).1.audio_schedule_time :=
            update_audio_sched_mono ns rt raw st
        _ ≤ (runTicks ns rest (update_audio ns rt raw st).1).1.audio_schedule_time :=
            ih (update_audio ns rt raw st).1
        _ = (runTicks ns ((rt, raw) :: rest) st).1.audio_schedule_time := rfl

theorem deinterleave_l_length (raw : List Int) :
    (deinterleave_l raw).length = 512 := by
  simp [deinterleave_l]

theorem deinterleave_r_length (raw : List Int) :
    (deinterleave_r raw).length = 512 := by
  simp [deinterleave_r]

theorem resyncStep_buf (rt : Rat) (st : MyApp) :
    (resyncStep rt st).audio_buf = st.audio_buf := by
  unfold resyncStep
  split <;> rfl

theorem resyncStep_queue (rt : Rat) (st : MyApp) :
    (resyncStep rt st).audio_queue = st.audio_queue := by
  unfold resyncStep
  split <;> rfl

theorem resyncStep_next (rt : Rat) (st : MyApp) :
    (resyncStep rt st).next_buf = st.next_buf := by
  unfold resyncStep
  split <;> rfl

theorem queueInv_congr (st st' : MyApp)
    (h : st.audio_queue = st'.audio_queue) : queueInv st = queueInv st' := by
  unfold queueInv
  rw [h]

theorem process_audio_buf_len_l (ns : List Int → Int) (raw : List Int)
    (st : MyApp) :
    (process_audio ns raw st).1.audio_buf.1.length = st.audio_buf.1.length := by
  cases hq : st.audio_queue.1 with
  | none => rw [process_audio_buf_l_none ns raw st hq]
  | some v =>
      rw [process_audio_buf_l_some ns raw st v hq]
      simp

theorem process_audio_buf_len_r (ns : List Int → Int) (raw : List Int)
    (st : MyApp) :
    (process_audio ns raw st).1.audio_buf.2.length = st.audio_buf.2.length := by
  cases hq : st.audio_queue.2 with
  | none => rw [process_audio_buf_r_none ns raw st hq]
  | some v =>
      rw [process_audio_buf_r_some ns raw st v hq]
      simp

theorem update_audio_buf_len_l (ns : List Int → Int) (rt : Rat)
    (raw : List Int) (st : MyApp) :
    (update_audio ns rt raw st).1.audio_buf.1.length = st.audio_buf.1.length := by
  by_cases h : (resyncStep rt st).audio_schedule_time - AUDIO_LOOKAHEAD_TIME ≤ rt
  · rw [update_audio_gate_true ns rt raw st h]
    show (process_audio ns raw (resyncStep rt st)).1.audio_buf.1.length = _
    rw [process_audio_buf_len_l, resyncStep_buf]
  · rw [update_audio_gate_false ns rt raw st h]
    show (resyncStep rt st).audio_buf.1.length = _
    rw [resyncStep_buf]

theorem update_audio_buf_len_r (ns : List Int → Int) (rt : Rat)
    (raw : List Int) (st : MyApp) :
    (update_audio ns rt raw st).1.audio_buf.2.length = st.audio_buf.2.length := by
  by_cases h : (resyncStep rt st).audio_schedule_time - AUDIO_LOOKAHEAD_TIME ≤ rt
  · rw [update_audio_gate_true ns rt raw st h]
    show (process_audio ns raw (resyncStep rt st)).1.audio_buf.2.length = _
    rw [process_audio_buf_len_r, resyncStep_buf]
  · rw [update_audio_gate_false ns rt raw st h]
    show (resyncStep rt st).audio_buf.2.length = _
    rw [resyncStep_buf]

theorem runTicks_buf_len (ns : List Int → Int) :
    ∀ (ticks : List (Rat × List Int)) (st : MyApp),
      (runTicks ns ticks st).1.audio_buf.1.length = st.audio_buf.1.length ∧
      (runTicks ns ticks st).1.audio_buf.2.length = st.audio_buf.2.length := by
  intro ticks
  induction ticks with
  | nil => intro st; exact ⟨rfl, rfl⟩
  | cons tk rest ih =>
      intro st
      obtain ⟨rt, raw⟩ := tk
      have h := ih (update_audio ns rt raw st).1
      exact ⟨h.1.trans (update_audio_buf_len_l ns rt raw st),
             h.2.trans (update_audio_buf_len_r ns rt raw st)⟩

theorem runStitch_nil (p : Option (List Int)) : runStitch p [] = ([], p) := rfl

theorem runStitch_cons (p : Option (List Int)) (c : List Int)
    (cs : List (List Int)) :
    runStitch p (c :: cs) =
      ((stitch p c).1 :: (runStitch (some c) cs).1,
       (runStitch (some c) cs).2) := by
  simp only [runStitch, stitch_snd]

theorem runStitch_length :
    ∀ (cs : List (List Int)) (p : Option (List Int)),
      ((runStitch p cs).1).length = cs.length := by
  intro cs
  induction cs with
  | nil => intro p; rfl
  | cons c cs ih =>
      intro p
      rw [runStitch_cons]
      simp [ih]

theorem runStitch_some_get :
    ∀ (cs : List (List Int)) (p : List Int) (k : Nat), k < cs.length →
      ((runStitch (some p) cs).1)[k]? =
        some (some ((p :: cs).getD k [] ++ [(cs.getD k []).headD 0])) := by
  intro cs
  induction cs with
  | nil => intro p k hk; simp at hk
  | cons c cs ih =>
      intro p k hk
      rw [runStitch_cons, stitch_some_eq]
      cases k with
      | zero => simp
      | succ k =>
          simp only [List.getElem?_cons_succ]
          rw [ih c k (by simpa using hk)]
          simp

theorem runStitch_append_last :
    ∀ (cs : List (List Int)) (p : Option (List Int)) (c : List Int),
      (runStitch p (cs ++ [c])).2 = some c := by
  intro cs
  induction cs with
  | nil =>
      intro p c
      rw [List.nil_append, runStitch_cons, runStitch_nil]
  | cons d cs ih =>
      intro p c
      rw [List.cons_append, runStitch_cons]
      exact ih (some d) c

theorem queueInv_true_iff (st : MyApp) :
    queueInv st = true ↔
      (st.audio_queue.1 = none ∧ st.audio_queue.2 = none) ∨
      (∃ a b, st.audio_queue.1 = some a ∧ st.audio_queue.2 = some b ∧
        a.length = 512 ∧ b.length = 512) := by
  unfold queueInv
  cases h1 : st.audio_queue.1 <;> cases h2 : st.audio_queue.2 <;> simp [h1, h2]

theorem update_audio_queueInv (ns : List Int → Int) (rt : Rat)
    (raw : List Int) (st : MyApp) (h : queueInv st = true) :
    queueInv (update_audio ns rt raw st).1 = true := by
  by_cases hg : (resyncStep rt st).audio_schedule_time - AUDIO_LOOKAHEAD_TIME ≤ rt
  · rw [update_audio_gate_true ns rt raw st hg]
    apply (queueInv_true_iff _).mpr
    right
    refine ⟨deinterleave_l raw, deinterleave_r raw, ?_, ?_,
      deinterleave_l_length raw, deinterleave_r_length raw⟩
    · show (process_audio ns raw (resyncStep rt st)).1.audio_queue.1 = _
      rw [process_audio_queue_eq]
    · show (process_audio ns raw (resyncStep rt st)).1.audio_queue.2 = _
      rw [process_audio_queue_eq]
  · rw [update_audio_gate_false ns rt raw st hg]
    show queueInv (resyncStep rt st) = true
    rw [queueInv_congr (resyncStep rt st) st (resyncStep_queue rt st)]
    exact h

theorem runTicks_queueInv (ns : List Int → Int) :
    ∀ (ticks : List (Rat × List Int)) (st : MyApp),
      queueInv st = true → queueInv (runTicks ns ticks st).1 = true := by
  intro ticks
  induction ticks with
  | nil => intro st h; exact h
  | cons tk rest ih =>
      intro st h
      obtain ⟨rt, raw⟩ := tk
      exact ih (update_audio ns rt raw st).1 (update_audio_queueInv ns rt raw st h)

/-! ## Claim theorems -/

/-- C1: for every non-negative size `S` in the supported range, when the
underlying allocator returns a non-null block `b` for the 8-byte-aligned
layout of size `S + 8`, `doom_malloc S` returns exactly `b + 8` (8 bytes
past the start of the allocation) after writing `S` into the header at
`b`; `doom_free` on that pointer reads back exactly `S` from the header 8
bytes before the pointer and deallocates the block at `b` with the same
layout `⟨S + 8, 8⟩` that was allocated. -/
theorem c1_alloc_free_roundtrip (oracle : Layout → Nat) (size : Int)
    (m : Mem) (b : Nat) (hs : 0 ≤ size) (hsz : size ≤ 2 ^ 31 - 16)
    (hb : oracle ⟨8 + size.toNat, 8⟩ = b) (hb0 : b ≠ 0) :
    doom_malloc oracle size m = some (b + 8, memWrite m b size) ∧
    memRead (memWrite m b size) (b + 8 - 8) = size ∧
    doom_free (b + 8) (memWrite m b size) = some (b, ⟨8 + size.toNat, 8⟩) ∧
    (8 : Int) + size.toNat = size + 8 := by
  have hszn : size.toNat ≤ 2 ^ 31 - 16 := by omega
  have h1 : usizeTryFrom size = some size.toNat := by
    unfold usizeTryFrom USIZE_MAX
    rw [if_pos]
    exact ⟨hs, by omega⟩
  have h2 : Layout.array_u8 (8 + size.toNat) = some ⟨8 + size.toNat, 1⟩ := by
    unfold Layout.array_u8 ISIZE_MAX
    rw [if_pos]
    omega
  have h3 : Layout.align_to ⟨8 + size.toNat, 1⟩ 8 = some ⟨8 + size.toNat, 8⟩ := by
    have hmax : (max 1 8 : Nat) = 8 := by decide
    unfold Layout.align_to ISIZE_MAX
    rw [if_pos]
    · rfl
    · exact ⟨by decide, by simp only [hmax]; omega⟩
  have hread : memRead (memWrite m b size) b = size := by
    simp [memRead, memWrite, List.find?]
  refine ⟨?_, ?_, ?_, by omega⟩
  · unfold doom_malloc
    rw [h1]
    simp only [Option.bind_eq_bind, Option.some_bind, h2, h3, hb]
    simp [hb0]
  · simpa using hread
  · unfold doom_free
    have hbb : b + 8 - 8 = b := by omega
    simp only [hbb, hread, h1, h2, h3, Option.bind_eq_bind, Option.some_bind]

/-- C1 witness: a concrete run with `S = 5` and a block at address 16. -/
theorem c1_alloc_free_roundtrip_witness :
    (0 : Int) ≤ 5 ∧ (5 : Int) ≤ 2 ^ 31 - 16 ∧
    (doom_malloc (fun _ => 16) 5 [] = some (24, memWrite [] 16 5) ∧
     memRead (memWrite [] 16 5) (16 + 8 - 8) = 5 ∧
     doom_free (16 + 8) (memWrite [] 16 5) = some (16, ⟨8 + (5 : Int).toNat, 8⟩) ∧
     (8 : Int) + (5 : Int).toNat = 5 + 8) := by
  refine ⟨by norm_num, by norm_num, ?_⟩
  exact c1_alloc_free_roundtrip (fun _ => 16) 5 [] 16 (by norm_num)
    (by norm_num) rfl (by norm_num)

/-- C2 (code evaluated at the failing input): when the underlying
allocator cannot satisfy the request and returns null (address 0),
`doom_malloc` does not fail — it returns the non-error pointer `0 + 8`
with no header written.  The size-representability half of the claim does
hold: a negative size panics. -/
theorem c2_null_alloc_not_fatal :
    doom_malloc (fun _ => 0) 0 [] = some (8, []) ∧
    doom_malloc (fun _ => 0) (-1) [] = none := by
  constructor <;> rfl

/-- C9: the file-open shim maps `"r"`/`"rb"` to read-mode and
`"w"`/`"wb"` to write-mode, passing the file name through to the host
open unchanged, and panics (returns no handle) on every other mode
string. -/
theorem c9_open_mode_mapping (f : String) (mode : String) :
    doom_open f "r" = some (f, FileMode.Read) ∧
    doom_open f "rb" = some (f, FileMode.Read) ∧
    doom_open f "w" = some (f, FileMode.Write) ∧
    doom_open f "wb" = some (f, FileMode.Write) ∧
    (mode ∉ (["r", "rb", "w", "wb"] : List String) → doom_open f mode = none) := by
  refine ⟨rfl, rfl, rfl, rfl, fun hm => ?_⟩
  simp only [List.mem_cons, List.mem_singleton, not_or] at hm
  obtain ⟨h1, h2, h3, h4, -⟩ := hm
  unfold doom_open
  split
  · exact absurd rfl h1
  · exact absurd rfl h2
  · exact absurd rfl h3
  · exact absurd rfl h4
  · rfl

/-- C9 witness: concrete evaluation, including the rejected mode
string `"a"`. -/
theorem c9_open_mode_mapping_witness :
    doom_open "x" "r" = some ("x", FileMode.Read) ∧
    doom_open "x" "wb" = some ("x", FileMode.Write) ∧
    ("a" ∉ (["r", "rb", "w", "wb"] : List String) ∧ doom_open "x" "a" = none) := by
  refine ⟨(c9_open_mode_mapping "x" "a").1, (c9_open_mode_mapping "x" "a").2.2.1,
    by decide, (c9_open_mode_mapping "x" "a").2.2.2.2 (by decide)⟩

/-- C4: on any tick whose schedule clock is behind the host real clock at
entry, the resync step sets the schedule clock to the host clock before
the gate is evaluated (so the tick then submits and ends at
`rt + chunkDuration`); on ticks where it is not behind, the resync step
changes nothing. -/
theorem c4_resync (ns : List Int → Int) (rt : Rat) (raw : List Int)
    (st : MyApp) :
    (st.audio_schedule_time < rt →
      resyncStep rt st = { st with audio_schedule_time := rt } ∧
      (update_audio ns rt raw st).1.audio_schedule_time = rt + chunkDuration) ∧
    (¬ st.audio_schedule_time < rt → resyncStep rt st = st) := by
  constructor
  · intro h
    have hr : resyncStep rt st = { st with audio_schedule_time := rt } := by
      unfold resyncStep
      rw [if_pos h]
    refine ⟨hr, ?_⟩
    have hg : (resyncStep rt st).audio_schedule_time - AUDIO_LOOKAHEAD_TIME ≤ rt :=
      resyncStep_gate rt st h
    rw [update_audio_gate_true ns rt raw st hg]
    show (process_audio ns raw (resyncStep rt st)).1.audio_schedule_time +
        chunkDuration = rt + chunkDuration
    rw [process_audio_sched_eq, hr]
  · intro h
    unfold resyncStep
    rw [if_neg h]

/-- C4 witness: from the initial state (schedule clock `-1`) with host
clock `1`, the resync snaps the clock to `1` and the tick ends at
`1 + chunkDuration`. -/
theorem c4_resync_witness :
    initApp.audio_schedule_time < 1 ∧
    (resyncStep 1 initApp = { initApp with audio_schedule_time := 1 } ∧
     (update_audio (fun _ => 0) 1 [] initApp).1.audio_schedule_time =
       1 + chunkDuration) := by
  have h : initApp.audio_schedule_time < 1 := by norm_num [initApp]
  exact ⟨h, (c4_resync (fun _ => 0) 1 [] initApp).1 h⟩

/-- C5: the schedule clock is non-decreasing on every tick and across
every sequence of ticks; the submission step advances it by exactly
`chunkDuration` precisely when the gate
(`host clock ≥ schedule clock − look-ahead`, evaluated after the resync)
fires, and an idle tick leaves the whole state — in particular the
schedule clock — unchanged. -/
theorem c5_schedule_monotone (ns : List Int → Int) (rt : Rat)
    (raw : List Int) (st : MyApp) :
    st.audio_schedule_time ≤ (update_audio ns rt raw st).1.audio_schedule_time ∧
    ((update_audio ns rt raw st).1.audio_schedule_time =
        (resyncStep rt st).audio_schedule_time + chunkDuration ↔
      (resyncStep rt st).audio_schedule_time - AUDIO_LOOKAHEAD_TIME ≤ rt) ∧
    (¬ (resyncStep rt st).audio_schedule_time - AUDIO_LOOKAHEAD_TIME ≤ rt →
      (update_audio ns rt raw st).1 = st ∧
      (update_audio ns rt raw st).1.audio_schedule_time =
        st.audio_schedule_time) ∧
    (∀ (ticks : List (Rat × List Int)) (st' : MyApp),
      st'.audio_schedule_time ≤ (runTicks ns ticks st').1.audio_schedule_time) := by
  refine ⟨update_audio_sched_mono ns rt raw st, ⟨?_, ?_⟩, ?_,
    fun ticks st' => runTicks_sched_mono ns ticks st'⟩
  · intro he
    by_contra hg
    rw [update_audio_gate_false ns rt raw st hg] at he
    have hd := chunkDuration_pos
    simp only at he
    linarith
  · intro hg
    rw [update_audio_gate_true ns rt raw st hg]
    show (process_audio ns raw (resyncStep rt st)).1.audio_schedule_time +
        chunkDuration = _
    rw [process_audio_sched_eq]
  · intro hg
    have hr := not_gate_resyncStep_eq rt st hg
    rw [update_audio_gate_false ns rt raw st hg, hr]
    exact ⟨rfl, rfl⟩

/-- C5 witness: from the initial state with host clock `0` the gate fires
and the schedule clock advances by exactly one chunk duration. -/
theorem c5_schedule_monotone_witness :
    ((resyncStep 0 initApp).audio_schedule_time - AUDIO_LOOKAHEAD_TIME ≤ 0) ∧
    (update_audio (fun _ => 0) 0 [] initApp).1.audio_schedule_time =
      (resyncStep 0 initApp).audio_schedule_time + chunkDuration := by
  have hg : (resyncStep 0 initApp).audio_schedule_time -
      AUDIO_LOOKAHEAD_TIME ≤ 0 := by
    norm_num [resyncStep, initApp, AUDIO_LOOKAHEAD_TIME]
  exact ⟨hg, ((c5_schedule_monotone (fun _ => 0) 0 [] initApp).2.1).mpr hg⟩

/-- C8: the de-interleave step produces two 512-sample streams; left
sample `i` is interleaved sample `2 i` and right sample `i` is
interleaved sample `2 i + 1`, each shifted left by two bits in 16-bit
signed arithmetic (shifted-out bits discarded); these streams are what an
activation stores as the new pending chunks. -/
theorem c8_deinterleave (raw : List Int) (i : Nat) (hi : i < 512)
    (hraw : raw.length = 1024) :
    (deinterleave_l raw).length = 512 ∧
    (deinterleave_r raw).length = 512 ∧
    (deinterleave_l raw)[i]? =
      some ((raw.getD (2 * i) 0 * 4 + 2 ^ 15) % 2 ^ 16 - 2 ^ 15) ∧
    (deinterleave_r raw)[i]? =
      some ((raw.getD (2 * i + 1) 0 * 4 + 2 ^ 15) % 2 ^ 16 - 2 ^ 15) ∧
    (∀ (ns : List Int → Int) (st : MyApp),
      (process_audio ns raw st).1.audio_queue =
        (some (deinterleave_l raw), some (deinterleave_r raw))) := by
  refine ⟨deinterleave_l_length raw, deinterleave_r_length raw, ?_, ?_,
    fun ns st => process_audio_queue_eq ns raw st⟩
  · simp [deinterleave_l, List.getElem?_range, hi, i16shl2, wrapI16]
  · simp [deinterleave_r, List.getElem?_range, hi, i16shl2, wrapI16]

/-- C3: iterating the stitch step over any sequence of N ≥ 2 per-channel
chunks, the activation pulling chunk 0 submits nothing, the activation
pulling chunk k+1 submits exactly chunk k with chunk k+1's first sample
appended (513 samples when chunks have 512), and after each activation
the pending queue holds the most recent chunk; an activation's submitted
sequence is precisely what `process_audio` uploads into the rotating slot
and its new pending pair is the de-interleaved incoming chunk. -/
theorem c3_stitch_continuity (chunks : List (List Int))
    (hN : 2 ≤ chunks.length) (hlen : ∀ c ∈ chunks, c.length = 512) :
    ((runStitch none chunks).1).length = chunks.length ∧
    ((runStitch none chunks).1)[0]? = some none ∧
    (∀ k, k + 1 < chunks.length →
      ((runStitch none chunks).1)[k + 1]? =
        some (some (chunks.getD k [] ++ [(chunks.getD (k + 1) []).headD 0])) ∧
      (chunks.getD k [] ++ [(chunks.getD (k + 1) []).headD 0]).length = 513) ∧
    (∀ (pre : List (List Int)) (c : List Int),
      (runStitch (none : Option (List Int)) (pre ++ [c])).2 = some c) ∧
    (∀ (ns : List Int → Int) (raw : List Int) (st : MyApp) (v : List Int),
      st.audio_queue.1 = some v →
      (stitch st.audio_queue.1 (deinterleave_l raw)).1 =
        some (v ++ [(deinterleave_l raw).headD 0]) ∧
      (process_audio ns raw st).1.audio_buf.1 =
        st.audio_buf.1.set (st.next_buf % AUDIO_NUM_BUFFERS)
          (some ⟨v ++ [(deinterleave_l raw).headD 0], 11025,
                 ns (v ++ [(deinterleave_l raw).headD 0])⟩) ∧
      (process_audio ns raw st).1.audio_queue.1 = some (deinterleave_l raw)) := by
  obtain ⟨c0, cs, rfl⟩ : ∃ c0 cs, chunks = c0 :: cs := by
    cases chunks with
    | nil => simp at hN
    | cons c0 cs => exact ⟨c0, cs, rfl⟩
  refine ⟨runStitch_length _ _, ?_, ?_, fun pre c => runStitch_append_last pre none c, ?_⟩
  · rw [runStitch_cons, stitch_none_eq]
    simp
  · intro k hk
    have hk' : k < cs.length := by simpa using hk
    have hget := runStitch_some_get cs c0 k hk'
    constructor
    · rw [runStitch_cons, stitch_none_eq]
      simp only [List.getElem?_cons_succ]
      rw [hget]
      simp
    · have hmem : (c0 :: cs).getD k [] ∈ c0 :: cs := by
        have hklt : k < (c0 :: cs).length := by simpa using Nat.lt_of_succ_lt hk
        rw [List.getD_eq_getElem (c0 :: cs) [] hklt]
        exact List.getElem_mem hklt
      have h512 := hlen _ hmem
      simp only [List.length_append, List.length_singleton, h512]
  · intro ns raw st v hv
    refine ⟨by rw [hv, stitch_some_eq], process_audio_buf_l_some ns raw st v hv, ?_⟩
    rw [process_audio_queue_eq]

/-- C3 witness: two concrete 512-sample chunks; the second activation
submits chunk 0 extended by chunk 1's first sample. -/
theorem c3_stitch_continuity_witness :
    (2 ≤ ([List.replicate 512 (0 : Int), List.replicate 512 7]).length ∧
     ∀ c ∈ [List.replicate 512 (0 : Int), List.replicate 512 7], c.length = 512) ∧
    ((runStitch none [List.replicate 512 (0 : Int), List.replicate 512 7]).1)[0]? =
      some none ∧
    ((runStitch none [List.replicate 512 (0 : Int), List.replicate 512 7]).1)[0 + 1]? =
      some (some (([List.replicate 512 (0 : Int), List.replicate 512 7]).getD 0 [] ++
        [(([List.replicate 512 (0 : Int), List.replicate 512 7]).getD (0 + 1) []).headD 0])) := by
  have hlen : ∀ c ∈ [List.replicate 512 (0 : Int), List.replicate 512 7],
      c.length = 512 := by
    intro c hc
    simp only [List.mem_cons, List.not_mem_nil, or_false] at hc
    rcases hc with h | h <;> rw [h, List.length_replicate]
  have h := c3_stitch_continuity [List.replicate 512 (0 : Int), List.replicate 512 7]
    (by norm_num) hlen
  exact ⟨⟨by norm_num, hlen⟩, h.2.1, (h.2.2.1 0 (by norm_num)).1⟩

/-- C6: `schedule_voice` enqueues, all at the same timestamp `t`:
sample-data binding to the given handle, sample rate 11025, looping off,
reverb off, volume 1, pitch 1, detune 0, the given pan, zero fade-in and
fade-out, then stop followed immediately by start for the same slot; and
a submitting activation invokes it with pan −1 on slot 0 for the left
channel and pan +1 on slot 1 for the right channel, both at
`schedule clock + look-ahead`. -/
theorem c6_voice_programming (handle slot : Int) (pan t : Rat)
    (ns : List Int → Int) (raw : List Int) (st : MyApp) :
    schedule_voice handle slot pan t =
      [ AudioCmd.set_voice_param_i slot AudioVoiceParam.SampleData handle t,
        AudioCmd.set_voice_param_i slot AudioVoiceParam.Samplerate 11025 t,
        AudioCmd.set_voice_param_i slot AudioVoiceParam.LoopEnabled 0 t,
        AudioCmd.set_voice_param_i slot AudioVoiceParam.Reverb 0 t,
        AudioCmd.set_voice_param_f slot AudioVoiceParam.Volume 1 t,
        AudioCmd.set_voice_param_f slot AudioVoiceParam.Pitch 1 t,
        AudioCmd.set_voice_param_f slot AudioVoiceParam.Detune 0 t,
        AudioCmd.set_voice_param_f slot AudioVoiceParam.Pan pan t,
        AudioCmd.set_voice_param_f slot AudioVoiceParam.FadeInDuration 0 t,
        AudioCmd.set_voice_param_f slot AudioVoiceParam.FadeOutDuration 0 t,
        AudioCmd.stop_voice slot t,
        AudioCmd.start_voice slot t ] ∧
    (∀ v1 v2, st.audio_queue.1 = some v1 → st.audio_queue.2 = some v2 →
      (process_audio ns raw st).2 =
        schedule_voice (ns (v1 ++ [(deinterleave_l raw).headD 0])) 0 (-1)
          (st.audio_schedule_time + AUDIO_LOOKAHEAD_TIME) ++
        schedule_voice (ns (v2 ++ [(deinterleave_r raw).headD 0])) 1 1
          (st.audio_schedule_time + AUDIO_LOOKAHEAD_TIME)) := by
  exact ⟨rfl, fun v1 v2 h1 h2 => process_audio_cmds_some_some ns raw st v1 v2 h1 h2⟩

/-- C6 witness: a state with both channels pending submits the left voice
on slot 0 with pan −1 and the right voice on slot 1 with pan +1, both at
schedule clock + look-ahead. -/
theorem c6_voice_programming_witness :
    ({ initApp with audio_queue := (some [2], some [3]) } : MyApp).audio_queue.1 =
      some [2] ∧
    ({ initApp with audio_queue := (some [2], some [3]) } : MyApp).audio_queue.2 =
      some [3] ∧
    (process_audio (fun _ => 9) []
        { initApp with audio_queue := (some [2], some [3]) }).2 =
      schedule_voice (9 : Int) 0 (-1)
        (({ initApp with audio_queue := (some [2], some [3]) } : MyApp).audio_schedule_time +
          AUDIO_LOOKAHEAD_TIME) ++
      schedule_voice (9 : Int) 1 1
        (({ initApp with audio_queue := (some [2], some [3]) } : MyApp).audio_schedule_time +
          AUDIO_LOOKAHEAD_TIME) := by
  refine ⟨rfl, rfl, ?_⟩
  exact (c6_voice_programming 0 0 0 0 (fun _ => 9) []
    { initApp with audio_queue := (some [2], some [3]) }).2 [2] [3] rfl rfl

/-- C7: per channel, an activation stores the newly created buffer at
rotating slot `next_buf % 3`, leaving every other slot untouched; the
pool keeps its length (3 from the initial state on, so at most 3 buffers
are retained per channel); `next_buf` increases by exactly 1 per
activation; and neither the resync step nor an idle tick touches the
pools, so the rotating overwrite is the only point a previously
submitted buffer is released. -/
theorem c7_rotating_pool (ns : List Int → Int) (raw : List Int)
    (st : MyApp) :
    (process_audio ns raw st).1.next_buf = st.next_buf + 1 ∧
    (process_audio ns raw st).1.audio_buf.1.length = st.audio_buf.1.length ∧
    (process_audio ns raw st).1.audio_buf.2.length = st.audio_buf.2.length ∧
    (∀ j, j ≠ st.next_buf % AUDIO_NUM_BUFFERS →
      (process_audio ns raw st).1.audio_buf.1[j]? = st.audio_buf.1[j]? ∧
      (process_audio ns raw st).1.audio_buf.2[j]? = st.audio_buf.2[j]?) ∧
    (∀ v, st.audio_queue.1 = some v →
      (process_audio ns raw st).1.audio_buf.1 =
        st.audio_buf.1.set (st.next_buf % AUDIO_NUM_BUFFERS)
          (some ⟨v ++ [(deinterleave_l raw).headD 0], 11025,
                 ns (v ++ [(deinterleave_l raw).headD 0])⟩)) ∧
    (∀ v, st.audio_queue.2 = some v →
      (process_audio ns raw st).1.audio_buf.2 =
        st.audio_buf.2.set (st.next_buf % AUDIO_NUM_BUFFERS)
          (some ⟨v ++ [(deinterleave_r raw).headD 0], 11025,
                 ns (v ++ [(deinterleave_r raw).headD 0])⟩)) ∧
    (∀ rt : Rat, (resyncStep rt st).audio_buf = st.audio_buf ∧
      (¬ (resyncStep rt st).audio_schedule_time - AUDIO_LOOKAHEAD_TIME ≤ rt →
        (update_audio ns rt raw st).1.audio_buf = st.audio_buf ∧
        (update_audio ns rt raw st).2 = [])) ∧
    (∀ ticks : List (Rat × List Int),
      (runTicks ns ticks initApp).1.audio_buf.1.length = AUDIO_NUM_BUFFERS ∧
      (runTicks ns ticks initApp).1.audio_buf.2.length = AUDIO_NUM_BUFFERS) := by
  refine ⟨process_audio_next_eq ns raw st, process_audio_buf_len_l ns raw st,
    process_audio_buf_len_r ns raw st, ?_,
    fun v hv => process_audio_buf_l_some ns raw st v hv,
    fun v hv => process_audio_buf_r_some ns raw st v hv, ?_, ?_⟩
  · intro j hj
    constructor
    · cases hq : st.audio_queue.1 with
      | none => rw [process_audio_buf_l_none ns raw st hq]
      | some v =>
          rw [process_audio_buf_l_some ns raw st v hq]
          exact List.getElem?_set_ne (Ne.symm hj)
    · cases hq : st.audio_queue.2 with
      | none => rw [process_audio_buf_r_none ns raw st hq]
      | some v =>
          rw [process_audio_buf_r_some ns raw st v hq]
          exact List.getElem?_set_ne (Ne.symm hj)
  · intro rt
    refine ⟨resyncStep_buf rt st, fun hg => ?_⟩
    rw [update_audio_gate_false ns rt raw st hg]
    exact ⟨resyncStep_buf rt st, rfl⟩
  · intro ticks
    have h := runTicks_buf_len ns ticks initApp
    exact ⟨h.1, h.2⟩

/-- C7 witness: from a state with both channels pending and
`next_buf = 0`, slot 1 is untouched and slot 0 receives the new
buffer. -/
theorem c7_rotating_pool_witness :
    ((1 : Nat) ≠
      ({ initApp with audio_queue := (some [5], some [6]) } : MyApp).next_buf %
        AUDIO_NUM_BUFFERS) ∧
    (process_audio (fun _ => 1) []
        { initApp with audio_queue := (some [5], some [6]) }).1.audio_buf.1[1]? =
      ({ initApp with audio_queue := (some [5], some [6]) } : MyApp).audio_buf.1[1]? ∧
    (process_audio (fun _ => 1) []
        { initApp with audio_queue := (some [5], some [6]) }).1.audio_buf.1 =
      ({ initApp with audio_queue := (some [5], some [6]) } : MyApp).audio_buf.1.set
        (({ initApp with audio_queue := (some [5], some [6]) } : MyApp).next_buf %
          AUDIO_NUM_BUFFERS)
        (some ⟨[5] ++ [(deinterleave_l []).headD 0], 11025, 1⟩) := by
  refine ⟨by decide, ?_, ?_⟩
  · exact ((c7_rotating_pool (fun _ => 1) []
      { initApp with audio_queue := (some [5], some [6]) }).2.2.2.1 1
      (by decide)).1
  · exact (c7_rotating_pool (fun _ => 1) []
      { initApp with audio_queue := (some [5], some [6]) }).2.2.2.2.1 [5] rfl

/-- C10: both pending queues are `none` in the initial state and both
`some` holding exactly 512 samples after every activation; the queue
invariant is preserved by every tick and holds in every state reachable
from the initial one; and under the invariant an activation either
submits on both channels (24 commands, two freshly stored 513-sample
buffers) or on neither (no commands, pools untouched). -/
theorem c10_queue_symmetry :
    initApp.audio_queue = ((none : Option (List Int)), (none : Option (List Int))) ∧
    queueInv initApp = true ∧
    (∀ (ns : List Int → Int) (rt : Rat) (raw : List Int) (st : MyApp),
      queueInv st = true → queueInv (update_audio ns rt raw st).1 = true) ∧
    (∀ (ns : List Int → Int) (ticks : List (Rat × List Int)),
      queueInv (runTicks ns ticks initApp).1 = true) ∧
    (∀ (ns : List Int → Int) (raw : List Int) (st : MyApp),
      (process_audio ns raw st).1.audio_queue =
        (some (deinterleave_l raw), some (deinterleave_r raw)) ∧
      (deinterleave_l raw).length = 512 ∧ (deinterleave_r raw).length = 512) ∧
    (∀ (ns : List Int → Int) (raw : List Int) (st : MyApp),
      queueInv st = true →
      ((process_audio ns raw st).2 = [] ∧ st.audio_queue.1 = none ∧
        st.audio_queue.2 = none ∧
        (process_audio ns raw st).1.audio_buf = st.audio_buf) ∨
      (∃ a b, st.audio_queue.1 = some a ∧ st.audio_queue.2 = some b ∧
        (process_audio ns raw st).2.length = 24 ∧
        (process_audio ns raw st).1.audio_buf.1 =
          st.audio_buf.1.set (st.next_buf % AUDIO_NUM_BUFFERS)
            (some ⟨a ++ [(deinterleave_l raw).headD 0], 11025,
                   ns (a ++ [(deinterleave_l raw).headD 0])⟩) ∧
        (a ++ [(deinterleave_l raw).headD 0]).length = 513 ∧
        (process_audio ns raw st).1.audio_buf.2 =
          st.audio_buf.2.set (st.next_buf % AUDIO_NUM_BUFFERS)
            (some ⟨b ++ [(deinterleave_r raw).headD 0], 11025,
                   ns (b ++ [(deinterleave_r raw).headD 0])⟩) ∧
        (b ++ [(deinterleave_r raw).headD 0]).length = 513)) := by
  refine ⟨rfl, rfl, fun ns rt raw st h => update_audio_queueInv ns rt raw st h,
    fun ns ticks => runTicks_queueInv ns ticks initApp rfl,
    fun ns raw st => ⟨process_audio_queue_eq ns raw st,
      deinterleave_l_length raw, deinterleave_r_length raw⟩, ?_⟩
  intro ns raw st h
  rcases (queueInv_true_iff st).mp h with ⟨h1, h2⟩ | ⟨a, b, h1, h2, ha, hb⟩
  · left
    refine ⟨process_audio_cmds_none_none ns raw st h1 h2, h1, h2, ?_⟩
    have hl := process_audio_buf_l_none ns raw st h1
    have hr := process_audio_buf_r_none ns raw st h2
    exact Prod.ext hl hr
  · right
    refine ⟨a, b, h1, h2, ?_, process_audio_buf_l_some ns raw st a h1, ?_,
      process_audio_buf_r_some ns raw st b h2, ?_⟩
    · rw [process_audio_cmds_some_some ns raw st a b h1 h2]
      rfl
    · simp only [List.length_append, List.length_singleton, ha]
    · simp only [List.length_append, List.length_singleton, hb]

/-- C10 witness: the invariant holds initially and is preserved across a
concrete tick. -/
theorem c10_queue_symmetry_witness :
    queueInv initApp = true ∧
    queueInv (update_audio (fun _ => 0) 0 [] initApp).1 = true := by
  have h0 : queueInv initApp = true := rfl
  exact ⟨h0, c10_queue_symmetry.2.2.1 (fun _ => 0) 0 [] initApp h0⟩

/-- C8 witness: a concrete chunk of 1024 samples all equal to `1`; the
left stream's sample 0 is `1 << 2 = 4`. -/
theorem c8_deinterleave_witness :
    (0 < 512 ∧ (List.replicate 1024 (1 : Int)).length = 1024) ∧
    (deinterleave_l (List.replicate 1024 (1 : Int)))[0]? =
      some (((List.replicate 1024 (1 : Int)).getD (2 * 0) 0 * 4 + 2 ^ 15) %
        2 ^ 16 - 2 ^ 15) ∧
    (deinterleave_l (List.replicate 1024 (1 : Int)))[0]? = some 4 := by
  have h := (c8_deinterleave (List.replicate 1024 (1 : Int)) 0 (by norm_num)
    (by rw [List.length_replicate])).2.2.1
  refine ⟨⟨by norm_num, by rw [List.length_replicate]⟩, h, ?_⟩
  rw [h]
  norm_num
